import Mathlib

/-!
Shallow embedding of the listing normalization, filtering, sorting and
aggregation engine of `src/src/App.tsx` (the same functions appear in the
unnamed variant source file).  JavaScript numbers are modelled as exact
rationals extended with the three non-finite values `inf`, `negInf` and
`nan`; JavaScript `Date` values are modelled as either a valid epoch-ms
instant or the invalid date; host behaviour that the engine merely calls
into (parsing of date strings by `new Date`, locale date rendering,
`localeCompare`) is abstracted into an explicit environment record.
-/

/-- Model of a JavaScript number: a finite (exact) rational, `Infinity`,
`-Infinity`, or `NaN`. -/
inductive JSNum where
  | fin (q : ℚ)
  | inf
  | negInf
  | nan
deriving DecidableEq

namespace JSNum

/-- JavaScript `<` on numbers: any comparison involving `NaN` is false. -/
def lt : JSNum → JSNum → Bool
  | fin a, fin b => decide (a < b)
  | fin _, inf => true
  | negInf, fin _ => true
  | negInf, inf => true
  | _, _ => false

/-- JavaScript `>` on numbers. -/
def gt (a b : JSNum) : Bool := lt b a

/-- JavaScript `<=` on numbers: any comparison involving `NaN` is false. -/
def le : JSNum → JSNum → Bool
  | fin a, fin b => decide (a ≤ b)
  | fin _, inf => true
  | negInf, fin _ => true
  | negInf, negInf => true
  | negInf, inf => true
  | inf, inf => true
  | _, _ => false

/-- JavaScript subtraction on numbers (`inf - inf = NaN`, etc.); the
finite case builds the exact difference by cross-multiplication. -/
def sub : JSNum → JSNum → JSNum
  | fin a, fin b => fin (mkRat (a.num * b.den - b.num * a.den) (a.den * b.den))
  | fin _, inf => negInf
  | fin _, negInf => inf
  | inf, fin _ => inf
  | inf, negInf => inf
  | negInf, fin _ => negInf
  | negInf, inf => negInf
  | _, _ => nan

/-- JavaScript unary negation on numbers. -/
def neg : JSNum → JSNum
  | fin a => fin (-a)
  | inf => negInf
  | negInf => inf
  | nan => nan

end JSNum

/-- Whitespace characters skipped by `parseFloat`. -/
def isJsWS (c : Char) : Bool :=
  c = ' ' || c = '\t' || c = '\n' || c = '\r' || c = '\x0b' || c = '\x0c'

/-- Decimal value of a digit list, most significant digit first. -/
def natOfDigits (ds : List Char) : Nat :=
  ds.foldl (fun n c => n * 10 + (c.toNat - '0'.toNat)) 0

/-- Whether the first list occurs at the very start of the second. -/
def startsList : List Char → List Char → Bool
  | [], _ => true
  | _ :: _, [] => false
  | a :: as, b :: bs => a = b && startsList as bs

/-- Exponent denoted by an `e`/`E` suffix of a number literal; a suffix with
no digits contributes exponent 0 (it is not part of the parsed literal). -/
def parseExp (cs : List Char) : Int :=
  match cs with
  | c :: rest =>
    if c = 'e' || c = 'E' then
      match rest with
      | '+' :: r => Int.ofNat (natOfDigits (r.takeWhile Char.isDigit))
      | '-' :: r => -Int.ofNat (natOfDigits (r.takeWhile Char.isDigit))
      | r => Int.ofNat (natOfDigits (r.takeWhile Char.isDigit))
    else 0
  | [] => 0

/-- Value of a decimal literal with digit string of value `m`, `f` digits
after the decimal point and decimal exponent `e`, that is `m·10^(e-f)`,
built without rational arithmetic so that it evaluates by kernel
reduction. -/
def decimalValue (m : Nat) (f : Nat) (e : Int) : ℚ :=
  if 0 ≤ e - f then ((m * 10 ^ (e - f).toNat : Nat) : ℚ)
  else mkRat m (10 ^ (f - e).toNat)

/-- Unsigned decimal literal at the head of the character list: its value
and the remaining characters, or `none` when no digits are present. -/
def parseDecimal (cs : List Char) : Option (ℚ × List Char) :=
  let intDs := cs.takeWhile Char.isDigit
  let rest1 := cs.dropWhile Char.isDigit
  let fracPair : List Char × List Char :=
    match rest1 with
    | '.' :: r => (r.takeWhile Char.isDigit, r.dropWhile Char.isDigit)
    | _ => ([], rest1)
  let fracDs := fracPair.1
  let rest2 := fracPair.2
  if intDs.isEmpty && fracDs.isEmpty then none
  else
    some (decimalValue (natOfDigits (intDs ++ fracDs)) fracDs.length (parseExp rest2), rest2)

/-- Unsigned part of `parseFloat` (after an optional sign): `Infinity`, a
decimal literal, or `NaN` when neither is present. -/
def parseFloatMag (cs : List Char) : JSNum :=
  if startsList "Infinity".toList cs then .inf
  else
    match parseDecimal cs with
    | none => .nan
    | some (q, _) => .fin q

/-- Model of JavaScript `parseFloat` on a string: skip leading whitespace,
read an optional sign, then the longest numeric literal; no literal means
`NaN`. -/
def parseFloat (s : String) : JSNum :=
  let cs := s.toList.dropWhile isJsWS
  match cs with
  | '-' :: r => (parseFloatMag r).neg
  | '+' :: r => parseFloatMag r
  | r => parseFloatMag r

/-- Model of `priceStr.replace(/[$,]/g, '')`: drop every dollar sign and
comma. -/
def stripCurrency (s : String) : String :=
  String.mk (s.toList.filter (fun c => !(c = '$' || c = ',')))

/-- Lower-cased string (models `toLowerCase` on the listing names and
search terms used here). -/
def lowerStr (s : String) : String :=
  String.mk (s.toList.map Char.toLower)

/-- Whether the first character list occurs contiguously inside the
second (models `String.prototype.includes`). -/
def occursIn (needle : List Char) (hay : List Char) : Bool :=
  startsList needle hay ||
    match hay with
    | [] => false
    | _ :: rest => occursIn needle rest

/-- Model of a JavaScript `Date`: a valid date holds its epoch-ms instant,
an invalid date has no instant (`getTime()` is `NaN`). -/
inductive JSDate where
  | valid (ms : Int)
  | invalid
deriving DecidableEq

/-- Model of `Date.prototype.getTime`. -/
def JSDate.getTime : JSDate → JSNum
  | .valid ms => .fin ms
  | .invalid => .nan

/-- Raw `uploadedAt` field: `null`/`undefined`, a `Date`, a string, or a
Firestore-timestamp-like object exposing a `toDate` capability (whose call
either yields a `Date`, `some d`, or throws, `none`). -/
inductive UploadedAt where
  | nothing
  | date (d : JSDate)
  | str (s : String)
  | tsObj (toDate : Option JSDate)
deriving DecidableEq

/-- Raw `price` field: a number, a string, or absent. -/
inductive PriceVal where
  | num (n : JSNum)
  | str (s : String)
  | undef
deriving DecidableEq

/-- JavaScript truthiness test on a raw price (`!price`). -/
def PriceVal.falsy : PriceVal → Bool
  | .num (.fin q) => decide (q = 0)
  | .num .nan => true
  | .num _ => false
  | .str s => decide (s = "")
  | .undef => true

/-- JavaScript truthiness test on a raw `uploadedAt` (`!value`). -/
def UploadedAt.falsy : UploadedAt → Bool
  | .nothing => true
  | .str s => decide (s = "")
  | _ => false

/-- The `Listing` record of the source, with optional fields made
explicit. -/
structure Listing where
  id : String
  name : String
  url : String
  price : PriceVal
  state : Option String
  uploadedAt : UploadedAt
deriving DecidableEq

/-- The five `SortOption` values. -/
inductive SortOption where
  | newest
  | oldest
  | priceLow
  | priceHigh
  | name
deriving DecidableEq

/-- Host behaviour the engine calls into but does not define: parsing of a
date string by `new Date(s)` (an unparseable string gives the invalid
date), locale rendering of a valid instant by `toLocaleDateString`, and
the locale string comparison used by `localeCompare`. -/
structure JSEnv where
  parseDate : String → JSDate
  fmtShortDate : Int → String
  locCmp : String → String → Int

/-- Model of `Date.prototype.toLocaleDateString` with the short options
used by the source: a valid instant renders through the locale formatter,
an invalid date renders as the string `"Invalid Date"`. -/
def JSDate.toLocaleShort (env : JSEnv) : JSDate → String
  | .valid ms => env.fmtShortDate ms
  | .invalid => "Invalid Date"

/-- Embedding of `getTimestamp` (App.tsx lines 179-191). -/
def getTimestamp (env : JSEnv) (value : UploadedAt) : JSNum :=
  if value.falsy then .fin 0
  else
    match value with
    | .nothing => .fin 0
    | .date d => d.getTime
    | .str s => (env.parseDate s).getTime
    | .tsObj (some d) => d.getTime
    | .tsObj none => .fin 0

/-- Embedding of `formatUploadedAt` (App.tsx lines 16-28). -/
def formatUploadedAt (env : JSEnv) (value : UploadedAt) : String :=
  if value.falsy then ""
  else
    match value with
    | .nothing => ""
    | .date d => d.toLocaleShort env
    | .str s => (env.parseDate s).toLocaleShort env
    | .tsObj (some d) => d.toLocaleShort env
    | .tsObj none => ""

/-- Embedding of `extractPrice` (App.tsx lines 30-36). -/
def extractPrice : PriceVal → JSNum
  | .num n => n
  | .undef => .fin 0
  | .str s =>
    if s = "" then .fin 0
    else
      match parseFloat (stripCurrency s) with
      | .nan => .fin 0
      | v => v

/-- Digits of a natural number with a comma inserted after every group of
three, working over the reversed digit list. -/
def commaChunks : List Char → List Char
  | a :: b :: c :: d :: rest => a :: b :: c :: ',' :: commaChunks (d :: rest)
  | l => l

/-- Decimal rendering of a natural number with thousands separators. -/
def withCommas (n : Nat) : String :=
  String.mk (commaChunks (Nat.toDigits 10 n).reverse).reverse

/-- Rounding to the nearest integer, ties away from zero (the default
`halfExpand` rounding of `Intl.NumberFormat`): for nonnegative `q` this is
`⌊q + 1/2⌋ = fdiv (2·num + den) (2·den)`, mirrored for negative `q`. -/
def roundHalfAway (q : ℚ) : Int :=
  if 0 ≤ q.num then (2 * q.num + q.den).fdiv (2 * q.den)
  else -((-(2 * q.num) + q.den).fdiv (2 * q.den))

/-- Model of `Intl.NumberFormat('en-US', {style:'currency', currency:'USD',
maximumFractionDigits: 0}).format`. -/
def formatCurrencyUSD : JSNum → String
  | .fin q =>
    let r := roundHalfAway q
    if r < 0 then "-$" ++ withCommas r.natAbs else "$" ++ withCommas r.toNat
  | .inf => "$∞"
  | .negInf => "-$∞"
  | .nan => "$NaN"

/-- Model of JavaScript `String(x)` on a raw price value (only the string
case is reachable inside `formatPrice`). -/
def PriceVal.jsString : PriceVal → String
  | .str s => s
  | .undef => "undefined"
  | .num (.fin q) => if q.den = 1 then toString q.num else toString q
  | .num .inf => "Infinity"
  | .num .negInf => "-Infinity"
  | .num .nan => "NaN"

/-- Embedding of `formatPrice` (App.tsx lines 38-47). -/
def formatPrice (price : PriceVal) : String :=
  if price.falsy then "Contact for pricing"
  else
    let numPrice := extractPrice price
    if numPrice = .fin 0 then price.jsString
    else formatCurrencyUSD numPrice

/-- Name criterion of the filter (first early return of the filter
callback, App.tsx lines 98-100). -/
def searchPass (searchTerm : String) (l : Listing) : Bool :=
  decide (searchTerm = "") || occursIn (lowerStr searchTerm).toList (lowerStr l.name).toList

/-- Region criterion of the filter (App.tsx lines 102-104). -/
def statePass (selectedState : String) (l : Listing) : Bool :=
  decide (selectedState = "all") || decide (l.state = some selectedState)

/-- The minimum bound used by the filter: `minPrice ? parseFloat(minPrice) : 0`. -/
def effMin (minS : String) : JSNum :=
  if minS = "" then .fin 0 else parseFloat minS

/-- The maximum bound used by the filter: `maxPrice ? parseFloat(maxPrice) : Infinity`. -/
def effMax (maxS : String) : JSNum :=
  if maxS = "" then .inf else parseFloat maxS

/-- Price-range criterion of the filter (App.tsx lines 106-112). -/
def pricePass (minS maxS : String) (l : Listing) : Bool :=
  let price := extractPrice l.price
  !(price.gt (.fin 0) && (price.lt (effMin minS) || price.gt (effMax maxS)))

/-- The whole filter callback of `filteredListings` (App.tsx lines 97-115):
the three early-false returns are conjoined. -/
def listingPasses (searchTerm selectedState minS maxS : String) (l : Listing) : Bool :=
  searchPass searchTerm l && statePass selectedState l && pricePass minS maxS l

/-- Three-way comparator passed to `sort` (App.tsx lines 117-132). -/
def listingCmp (env : JSEnv) (mode : SortOption) (a b : Listing) : JSNum :=
  match mode with
  | .newest => (getTimestamp env b.uploadedAt).sub (getTimestamp env a.uploadedAt)
  | .oldest => (getTimestamp env a.uploadedAt).sub (getTimestamp env b.uploadedAt)
  | .priceLow => (extractPrice a.price).sub (extractPrice b.price)
  | .priceHigh => (extractPrice b.price).sub (extractPrice a.price)
  | .name => .fin (env.locCmp a.name b.name)

/-- Whether a comparator result is strictly positive; ECMAScript
`SortCompare` treats a `NaN` comparator result as `+0`. -/
def cmpPos : JSNum → Bool
  | .fin q => decide (0 < q)
  | .inf => true
  | _ => false

/-- The not-after relation induced by the comparator: `a` may stay before
`b` unless the comparator orders it strictly after. -/
def sortLe (env : JSEnv) (mode : SortOption) (a b : Listing) : Bool :=
  !cmpPos (listingCmp env mode a b)

/-- Stable insertion of an element in front of the first element it is
not-after. -/
def insertSorted (le : Listing → Listing → Bool) (x : Listing) : List Listing → List Listing
  | [] => [x]
  | y :: ys => if le x y then x :: y :: ys else y :: insertSorted le x ys

/-- Stable sort modelling `Array.prototype.sort` (required stable since
ES2019). -/
def stableSortBy (le : Listing → Listing → Bool) (l : List Listing) : List Listing :=
  l.foldr (insertSorted le) []

/-- The sort stage of `filteredListings`. -/
def jsSort (env : JSEnv) (mode : SortOption) (l : List Listing) : List Listing :=
  stableSortBy (sortLe env mode) l

/-- Embedding of the `filteredListings` pipeline (App.tsx lines 96-135):
filter, then sort by the selected mode. -/
def filteredListings (env : JSEnv) (listings : List Listing)
    (searchTerm selectedState minS maxS : String) (mode : SortOption) : List Listing :=
  jsSort env mode (listings.filter (listingPasses searchTerm selectedState minS maxS))

/-- The five fixed price buckets of `priceDistribution` (App.tsx lines
139-145): label, inclusive lower bound, exclusive upper bound. -/
def priceRanges : List (String × ℚ × JSNum) :=
  [("<$50k", 0, .fin 50000),
   ("$50k-$100k", 50000, .fin 100000),
   ("$100k-$250k", 100000, .fin 250000),
   ("$250k-$500k", 250000, .fin 500000),
   (">$500k", 500000, .inf)]

/-- Whether a listing is counted in the bucket with the given bounds
(App.tsx lines 147-153: `price > 0` and the bucket's range test; the five
ranges are pairwise disjoint, so the first matching range is the only
matching one). -/
def bucketPred (lo : ℚ) (hi : JSNum) (l : Listing) : Bool :=
  let price := extractPrice l.price
  price.gt (.fin 0) && (JSNum.fin lo).le price && price.lt hi

/-- The five bucket counts of `priceDistribution`. -/
def bucketCounts (listings : List Listing) : List Nat :=
  priceRanges.map (fun r => listings.countP (bucketPred r.2.1 r.2.2))

/-- Sum of the five price-bucket counts. -/
def bucketSum (listings : List Listing) : Nat := (bucketCounts listings).sum

/-- Sum of the five per-bucket indicator values of a single listing. -/
def elemBuckets (l : Listing) : Nat :=
  (priceRanges.map (fun r => if bucketPred r.2.1 r.2.2 l then 1 else 0)).sum

/-- The state key a listing contributes to `stateCounts`, if any: the
source counts a listing exactly when its `state` is truthy (present and
non-empty), App.tsx lines 161-165. -/
def truthyState (l : Listing) : Option String :=
  match l.state with
  | some s => if s = "" then none else some s
  | none => none

/-- The per-state counts of `stateDistribution` before sorting and top-10
truncation: each distinct truthy state paired with its number of
occurrences. -/
def regionCounts (listings : List Listing) : List (String × Nat) :=
  let keys := listings.filterMap truthyState
  keys.dedup.map (fun s => (s, keys.count s))

/-- A concrete host environment used for concrete evaluations: every date
string parses to the invalid date, and the locale order on names is the
code-point order. -/
def env0 : JSEnv where
  parseDate := fun _ => .invalid
  fmtShortDate := fun _ => "Jan 1"
  locCmp := fun a b => if a < b then -1 else if b < a then 1 else 0

/-- First listing of the end-to-end scenario: numeric price 50000,
state Florida. -/
def listingFL1 : Listing :=
  { id := "1", name := "Alpha", url := "#", price := .num (.fin 50000),
    state := some "Florida", uploadedAt := .nothing }

/-- Second listing of the end-to-end scenario: text price `"$120,000"`,
state Idaho. -/
def listingID : Listing :=
  { id := "2", name := "Beta", url := "#", price := .str "$120,000",
    state := some "Idaho", uploadedAt := .nothing }

/-- Third listing of the end-to-end scenario: absent price, state
Florida. -/
def listingFL2 : Listing :=
  { id := "3", name := "Gamma", url := "#", price := .undef,
    state := some "Florida", uploadedAt := .nothing }

/-- A listing whose numeric price is strictly negative. -/
def listingNeg : Listing :=
  { id := "4", name := "Delta", url := "#", price := .num (.fin (-5)),
    state := none, uploadedAt := .nothing }

/-- A listing with an absent price field and no state. -/
def listingNoPrice : Listing :=
  { id := "5", name := "Epsilon", url := "#", price := .undef,
    state := none, uploadedAt := .nothing }

/-- A listing whose state field is present but the empty string. -/
def listingEmptyState : Listing :=
  { id := "6", name := "Zeta", url := "#", price := .num (.fin 1),
    state := some "", uploadedAt := .nothing }

/-- Whether a listing's price field is present (`price !== undefined`). -/
def hasDefinedPrice (l : Listing) : Bool :=
  match l.price with
  | .undef => false
  | _ => true

/-- Whether a listing's state field is present (possibly empty). -/
def hasDefinedState (l : Listing) : Bool := l.state.isSome

/-- Whether a listing's normalized price is a nonnegative finite value
(the only shape of price under which the bucket histogram can be
conservative). -/
def nicePrice (l : Listing) : Bool :=
  match extractPrice l.price with
  | .fin q => decide (0 ≤ q)
  | _ => false

namespace JSNum

theorem lt_nan_eq_false (p : JSNum) : p.lt nan = false := by
  cases p <;> rfl

theorem gt_nan_eq_false (p : JSNum) : p.gt nan = false := by
  cases p <;> rfl

theorem gt_inf_eq_false (p : JSNum) : p.gt inf = false := by
  cases p <;> rfl

theorem lt_zero_of_gt_zero (p : JSNum) (h : p.gt (fin 0) = true) :
    p.lt (fin 0) = false := by
  cases p with
  | fin q =>
    simp only [gt, lt, decide_eq_true_eq, decide_eq_false_iff_not] at h ⊢
    exact not_lt.mpr h.le
  | inf => rfl
  | negInf => simp [gt, lt] at h
  | nan => rfl

end JSNum

/-- Claim C1 (amended): `getTimestamp` is a total function (it never
raises); it returns 0 exactly on absent/falsy input and on a throwing
`toDate` capability, a valid instant is mapped to its epoch milliseconds,
and an input holding an invalid date (an invalid `Date` object, or a date
string the host cannot parse) yields `NaN` rather than 0. -/
theorem getTimestamp_characterization : ∀ (env : JSEnv),
    getTimestamp env .nothing = .fin 0
    ∧ (∀ ms : Int, getTimestamp env (.date (.valid ms)) = .fin ms)
    ∧ getTimestamp env (.date .invalid) = .nan
    ∧ (∀ s : String,
        getTimestamp env (.str s) = if s = "" then .fin 0 else (env.parseDate s).getTime)
    ∧ (∀ d : JSDate, getTimestamp env (.tsObj (some d)) = d.getTime)
    ∧ getTimestamp env (.tsObj none) = .fin 0 := by
  intro env
  refine ⟨rfl, fun ms => rfl, rfl, fun s => ?_, fun d => rfl, rfl⟩
  by_cases h : s = "" <;> simp [getTimestamp, UploadedAt.falsy, h]

/-- Claim C1, counterexample to the claim as stated: an invalid `Date` is
an input that cannot be converted to a concrete instant, yet
`getTimestamp` returns `NaN` on it, not 0. -/
theorem getTimestamp_invalid_date_counterexample :
    getTimestamp env0 (.date .invalid) = .nan ∧ JSNum.nan ≠ .fin 0 := by
  exact ⟨rfl, by decide⟩

/-- Claim C8 (amended): `formatUploadedAt` is a total function (it never
throws); it returns the empty string exactly on absent/falsy input and on
a throwing `toDate` capability, a valid instant renders through the
locale formatter, and an input holding an invalid date renders as the
string `"Invalid Date"` rather than the empty string. -/
theorem formatUploadedAt_characterization : ∀ (env : JSEnv),
    formatUploadedAt env .nothing = ""
    ∧ (∀ ms : Int, formatUploadedAt env (.date (.valid ms)) = env.fmtShortDate ms)
    ∧ formatUploadedAt env (.date .invalid) = "Invalid Date"
    ∧ (∀ s : String,
        formatUploadedAt env (.str s) =
          if s = "" then "" else (env.parseDate s).toLocaleShort env)
    ∧ (∀ d : JSDate, formatUploadedAt env (.tsObj (some d)) = d.toLocaleShort env)
    ∧ formatUploadedAt env (.tsObj none) = "" := by
  intro env
  refine ⟨rfl, fun ms => rfl, rfl, fun s => ?_, fun d => rfl, rfl⟩
  by_cases h : s = "" <;> simp [formatUploadedAt, UploadedAt.falsy, h]

/-- Claim C8, counterexample to the claim as stated: an invalid `Date`
cannot be converted to a concrete instant (the numeric normalizer fails
on it), yet the display formatter renders `"Invalid Date"`, not the empty
string. -/
theorem formatUploadedAt_invalid_date_counterexample :
    formatUploadedAt env0 (.date .invalid) = "Invalid Date"
    ∧ getTimestamp env0 (.date .invalid) ≠ .fin 0
    ∧ ("Invalid Date" : String) ≠ "" := by
  exact ⟨rfl, by decide, by decide⟩

/-- Claim C6: `extractPrice` returns a numeric input unchanged; a text
input has every dollar sign and comma stripped and is parsed as a float,
with an unparseable result degrading to 0; an absent input yields 0;
and on the concrete inputs of the claim it gives
`"$1,250,000" ↦ 1250000` and `0, "", undefined ↦ 0`. -/
theorem extractPrice_spec :
    (∀ n : JSNum, extractPrice (.num n) = n)
    ∧ (∀ s : String,
        extractPrice (.str s) =
          match parseFloat (stripCurrency s) with
          | .nan => .fin 0
          | v => v)
    ∧ extractPrice .undef = .fin 0
    ∧ extractPrice (.str "$1,250,000") = .fin 1250000
    ∧ extractPrice (.num (.fin 0)) = .fin 0
    ∧ extractPrice (.str "") = .fin 0 := by
  refine ⟨fun n => rfl, fun s => ?_, rfl, by decide, rfl, rfl⟩
  by_cases h : s = ""
  · subst h; decide
  · simp [extractPrice, h]

/-- Claim C7: `formatPrice` yields `"Contact for pricing"` on every
absent/falsy raw price; a non-empty text price whose numeric form is 0 is
echoed back verbatim; any other price is rendered by the whole-dollar
currency formatter, in particular `150000 ↦ "$150,000"`. -/
theorem formatPrice_spec :
    (∀ p : PriceVal, p.falsy = true → formatPrice p = "Contact for pricing")
    ∧ (∀ s : String, s ≠ "" → extractPrice (.str s) = .fin 0 → formatPrice (.str s) = s)
    ∧ (∀ p : PriceVal, p.falsy = false → extractPrice p ≠ .fin 0 →
        formatPrice p = formatCurrencyUSD (extractPrice p))
    ∧ formatPrice (.num (.fin 150000)) = "$150,000" := by
  refine ⟨fun p hp => ?_, fun s hs h0 => ?_, fun p hp h0 => ?_, by decide⟩
  · simp [formatPrice, hp]
  · have hf : PriceVal.falsy (.str s) = false := by
      simp [PriceVal.falsy, hs]
    simp [formatPrice, hf, h0, PriceVal.jsString]
  · simp [formatPrice, hp, h0]

/-- Claim C7 witness: the three clauses at the concrete raw prices
`undefined`, `"Negotiable"` and `150000`. -/
theorem formatPrice_spec_witness :
    formatPrice .undef = "Contact for pricing"
    ∧ formatPrice (.str "Negotiable") = "Negotiable"
    ∧ formatPrice (.num (.fin 150000)) = formatCurrencyUSD (.fin 150000) := by
  refine ⟨formatPrice_spec.1 .undef (by decide),
    formatPrice_spec.2.1 "Negotiable" (by decide) (by decide),
    formatPrice_spec.2.2.1 (.num (.fin 150000)) (by decide) (by decide)⟩

/-- Claim C5: on the three-listing dataset of the end-to-end scenario,
filtering with minimum price 60000 keeps exactly the second and third
listings (the third is exempt through its normalized price 0, the first
is excluded), and sorting that result by `price-low` puts the third
(normalized 0) before the second (normalized 120000). -/
theorem end_to_end_scenario :
    ([listingFL1, listingID, listingFL2].filter (listingPasses "" "all" "60000" ""))
      = [listingID, listingFL2]
    ∧ filteredListings env0 [listingFL1, listingID, listingFL2] "" "all" "60000" "" .priceLow
      = [listingFL2, listingID] := by
  decide

/-- Claim C10: a listing whose normalized price is strictly negative is
never excluded by the price-range criterion, whatever the min/max
criteria are (the source tests `price > 0`, so the exemption covers all
non-positive prices), and it is counted in none of the five
price-distribution buckets. -/
theorem negative_price_exempt_and_unbucketed :
    ∀ (l : Listing) (minS maxS : String) (q : ℚ),
      extractPrice l.price = .fin q → q < 0 →
      pricePass minS maxS l = true
      ∧ (∀ r ∈ priceRanges, bucketPred r.2.1 r.2.2 l = false)
      ∧ (∀ ls : List Listing, bucketCounts (l :: ls) = bucketCounts ls) := by
  intro l minS maxS q hq hneg
  have hgt : (extractPrice l.price).gt (.fin 0) = false := by
    rw [hq]
    simp only [JSNum.gt, JSNum.lt, decide_eq_false_iff_not]
    exact not_lt.mpr hneg.le
  refine ⟨?_, ?_, ?_⟩
  · simp [pricePass, hgt]
  · intro r _
    simp [bucketPred, hgt]
  · intro ls
    have hb : ∀ lo hi, bucketPred lo hi l = false := by
      intro lo hi; simp [bucketPred, hgt]
    simp [bucketCounts, List.countP_cons, hb]

/-- Claim C10 witness: the concrete listing with numeric price −5 passes
the price filter for min 10 and max 20, and adding it to a dataset leaves
every bucket count unchanged. -/
theorem negative_price_exempt_and_unbucketed_witness :
    pricePass "10" "20" listingNeg = true
    ∧ bucketCounts [listingNeg, listingFL1] = bucketCounts [listingFL1] := by
  have h := negative_price_exempt_and_unbucketed listingNeg "10" "20" (-5)
    (by decide) (by decide)
  exact ⟨h.1, h.2.2 [listingFL1]⟩

theorem pricePass_min_nan (minS maxS : String) (hm : minS ≠ "")
    (hnan : parseFloat minS = .nan) (l : Listing) :
    pricePass minS maxS l = pricePass "" maxS l := by
  unfold pricePass effMin
  rw [if_neg hm, hnan, if_pos rfl]
  cases hp : (extractPrice l.price).gt (.fin 0) with
  | false => simp [hp]
  | true => simp [hp, JSNum.lt_nan_eq_false, JSNum.lt_zero_of_gt_zero _ hp]

theorem pricePass_max_nan (minS maxS : String) (hm : maxS ≠ "")
    (hnan : parseFloat maxS = .nan) (l : Listing) :
    pricePass minS maxS l = pricePass minS "" l := by
  unfold pricePass effMax
  rw [if_neg hm, hnan, if_pos rfl]
  simp [JSNum.gt_nan_eq_false, JSNum.gt_inf_eq_false]

/-- Claim C4: a min or max criterion given as non-numeric text (so that
`parseFloat` yields `NaN`) makes the whole pipeline produce exactly the
same result as leaving that criterion unset (min treated as 0, max as
+∞): the `NaN` comparisons are all false, which coincides with the
default bounds for every listing, so no listing with positive normalized
price is silently excluded. -/
theorem nan_range_guard (env : JSEnv) (listings : List Listing)
    (searchTerm selectedState minS maxS : String) (mode : SortOption) :
    (minS ≠ "" → parseFloat minS = .nan →
      filteredListings env listings searchTerm selectedState minS maxS mode
        = filteredListings env listings searchTerm selectedState "" maxS mode)
    ∧ (maxS ≠ "" → parseFloat maxS = .nan →
      filteredListings env listings searchTerm selectedState minS maxS mode
        = filteredListings env listings searchTerm selectedState minS "" mode) := by
  constructor
  · intro hm hnan
    unfold filteredListings
    congr 1
    apply List.filter_congr
    intro l _
    unfold listingPasses
    rw [pricePass_min_nan minS maxS hm hnan]
  · intro hm hnan
    unfold filteredListings
    congr 1
    apply List.filter_congr
    intro l _
    unfold listingPasses
    rw [pricePass_max_nan minS maxS hm hnan]

/-- Claim C4 witness: with the non-numeric min text `"abc"` (and the
non-numeric max text `"xyz"`) the pipeline on the concrete three-listing
dataset equals the pipeline with the criterion unset. -/
theorem nan_range_guard_witness :
    parseFloat "abc" = .nan
    ∧ filteredListings env0 [listingFL1, listingID, listingFL2] "" "all" "abc" "" .newest
      = filteredListings env0 [listingFL1, listingID, listingFL2] "" "all" "" "" .newest
    ∧ filteredListings env0 [listingFL1, listingID, listingFL2] "" "all" "" "xyz" .newest
      = filteredListings env0 [listingFL1, listingID, listingFL2] "" "all" "" "" .newest := by
  refine ⟨by decide, ?_, ?_⟩
  · exact (nan_range_guard env0 [listingFL1, listingID, listingFL2] "" "all" "abc" "" .newest).1
      (by decide) (by decide)
  · exact (nan_range_guard env0 [listingFL1, listingID, listingFL2] "" "all" "" "xyz" .newest).2
      (by decide) (by decide)

theorem JSNum.lt_eq_false_iff_le (a b : JSNum) (ha : a ≠ nan) (hb : b ≠ nan) :
    (a.lt b = false) ↔ b.le a = true := by
  cases a <;> cases b <;>
    simp_all [lt, le, not_lt]

theorem JSNum.ne_nan_of_gt_zero (p : JSNum) (h : p.gt (fin 0) = true) : p ≠ nan := by
  cases p <;> simp_all [gt, lt]

/-- Claim C3, counterexample to the claim as stated: the listing with
normalized price −5 has a nonzero normalized price, the min criterion
`"10"` is not satisfied by −5, and yet the price-range criterion passes
the listing. -/
theorem pricePass_negative_counterexample :
    extractPrice listingNeg.price = .fin (-5)
    ∧ JSNum.fin (-5) ≠ .fin 0
    ∧ pricePass "10" "" listingNeg = true
    ∧ (effMin "10").le (.fin (-5)) = false := by
  decide

/-- Claim C3 (amended): a listing whose normalized price is not strictly
positive (zero, negative, or `NaN`) always passes the price-range
criterion whatever the criteria are; a listing with positive normalized
price passes exactly when `min ≤ p ∧ p ≤ max`, where the min bound
defaults to 0 and the max bound to +∞ when the criterion is unset, as
long as the given bounds are numeric (not `NaN`). -/
theorem pricePass_spec (l : Listing) (minS maxS : String) :
    ((extractPrice l.price).gt (.fin 0) = false → pricePass minS maxS l = true)
    ∧ ((extractPrice l.price).gt (.fin 0) = true → effMin minS ≠ .nan → effMax maxS ≠ .nan →
        (pricePass minS maxS l = true ↔
          ((effMin minS).le (extractPrice l.price) = true
            ∧ (extractPrice l.price).le (effMax maxS) = true)))
    ∧ effMin "" = .fin 0 ∧ effMax "" = .inf := by
  refine ⟨fun h => ?_, fun h hmin hmax => ?_, rfl, rfl⟩
  · simp [pricePass, h]
  · have hp : extractPrice l.price ≠ .nan := JSNum.ne_nan_of_gt_zero _ h
    unfold pricePass
    simp only [h, Bool.true_and, Bool.not_or, Bool.and_eq_true, Bool.not_eq_true']
    rw [JSNum.lt_eq_false_iff_le _ _ hp hmin]
    unfold JSNum.gt
    rw [JSNum.lt_eq_false_iff_le _ _ hmax hp]

/-- Claim C3 witness: the amended characterization at concrete inputs —
the exempt listing with normalized price 0 passes for min 10, and the
listing with price 50000 fails the min criterion 60000 in accordance with
the two-sided bound test. -/
theorem pricePass_spec_witness :
    pricePass "10" "" listingFL2 = true
    ∧ (pricePass "60000" "" listingFL1 = true ↔
        ((effMin "60000").le (extractPrice listingFL1.price) = true
          ∧ (extractPrice listingFL1.price).le (effMax "") = true)) := by
  constructor
  · exact (pricePass_spec listingFL2 "10" "").1 (by decide)
  · exact (pricePass_spec listingFL1 "60000" "").2.1 (by decide) (by decide) (by decide)

theorem stableSortBy_of_pairwise (le : Listing → Listing → Bool) (xs : List Listing)
    (h : List.Pairwise (fun a b => le a b = true) xs) : stableSortBy le xs = xs := by
  induction xs with
  | nil => rfl
  | cons x t ih =>
    rw [List.pairwise_cons] at h
    show insertSorted le x (stableSortBy le t) = x :: t
    rw [ih h.2]
    cases t with
    | nil => rfl
    | cons y ys =>
      unfold insertSorted
      rw [if_pos (h.1 y (by simp))]

/-- Claim C9: for every environment, every sort mode and every sequence of
listings already sorted by that mode (each element not-after every later
one under the mode's comparator), sorting by the same mode returns the
sequence unchanged, element for element — the stable sort preserves the
relative order of ties because it returns the input itself. -/
theorem sort_idempotence (env : JSEnv) (mode : SortOption) (xs : List Listing)
    (h : List.Pairwise (fun a b => sortLe env mode a b = true) xs) :
    jsSort env mode xs = xs :=
  stableSortBy_of_pairwise (sortLe env mode) xs h

/-- Claim C9 witness: the two-listing sequence sorted by `price-low`
(prices 0 then 120000) is returned unchanged by the sort. -/
theorem sort_idempotence_witness :
    List.Pairwise (fun a b => sortLe env0 .priceLow a b = true) [listingFL2, listingID]
    ∧ jsSort env0 .priceLow [listingFL2, listingID] = [listingFL2, listingID] := by
  have hp : List.Pairwise (fun a b => sortLe env0 .priceLow a b = true)
      [listingFL2, listingID] := by
    simp only [List.pairwise_cons, List.mem_singleton, List.not_mem_nil]
    refine ⟨?_, ?_, ?_⟩ <;> first | decide | (intro y hy; subst hy; decide) | simp
  exact ⟨hp, sort_idempotence env0 .priceLow [listingFL2, listingID] hp⟩

theorem length_filterMap_eq_countP (f : Listing → Option String) (ls : List Listing) :
    (ls.filterMap f).length = ls.countP (fun l => (f l).isSome) := by
  induction ls with
  | nil => rfl
  | cons a t ih =>
    cases h : f a <;> simp [List.filterMap_cons, h, List.countP_cons, ih]

theorem regionCounts_sum (ls : List Listing) :
    ((regionCounts ls).map Prod.snd).sum = ls.countP (fun l => (truthyState l).isSome) := by
  unfold regionCounts
  rw [List.map_map]
  have : (Prod.snd ∘ fun s => (s, (ls.filterMap truthyState).count s))
      = fun s => (ls.filterMap truthyState).count s := rfl
  rw [this, List.sum_map_count_dedup_eq_length]
  exact length_filterMap_eq_countP truthyState ls

theorem bucketSum_cons (l : Listing) (ls : List Listing) :
    bucketSum (l :: ls) = elemBuckets l + bucketSum ls := by
  simp only [bucketSum, bucketCounts, elemBuckets, priceRanges, List.map_cons,
    List.map_nil, List.sum_cons, List.sum_nil, List.countP_cons]
  split_ifs <;> omega

theorem undef_extract (l : Listing) (h : hasDefinedPrice l = false) :
    extractPrice l.price = .fin 0 := by
  unfold hasDefinedPrice at h
  cases hp : l.price <;> rw [hp] at h <;> first | rfl | simp at h

theorem elemBuckets_of_nonpos (l : Listing) (h : (extractPrice l.price).gt (.fin 0) = false) :
    elemBuckets l = 0 := by
  simp [elemBuckets, priceRanges, bucketPred, h]

theorem elem_conservation (l : Listing) (h : nicePrice l = true) :
    elemBuckets l
      + (if (hasDefinedPrice l && decide (extractPrice l.price = .fin 0)) = true then 1 else 0)
      = if hasDefinedPrice l = true then 1 else 0 := by
  unfold nicePrice at h
  cases he : extractPrice l.price with
  | inf => rw [he] at h; exact absurd h (by simp)
  | negInf => rw [he] at h; exact absurd h (by simp)
  | nan => rw [he] at h; exact absurd h (by simp)
  | fin q =>
    rw [he] at h
    rw [decide_eq_true_eq] at h
    cases hd : hasDefinedPrice l with
    | false =>
      have h0 : extractPrice l.price = .fin 0 := undef_extract l hd
      have hg : (extractPrice l.price).gt (.fin 0) = false := by
        rw [h0]; decide
      rw [elemBuckets_of_nonpos l hg]
      simp
    | true =>
      rcases eq_or_lt_of_le h with hq0 | hq0
      · have h0 : extractPrice l.price = .fin 0 := by rw [he, ← hq0]
        have hg : (extractPrice l.price).gt (.fin 0) = false := by
          rw [h0]; decide
        rw [elemBuckets_of_nonpos l hg]
        simp [← hq0]
      · have hz : decide (JSNum.fin q = JSNum.fin 0) = false := by
          simp only [decide_eq_false_iff_not, ne_eq, JSNum.fin.injEq]
          exact fun hc => absurd hc hq0.ne'
        rw [hz]
        simp only [Bool.and_false, Bool.false_eq_true, if_neg (by simp : ¬False), add_zero,
          if_pos rfl]
        simp only [elemBuckets, priceRanges, List.map_cons, List.map_nil, List.sum_cons,
          List.sum_nil, bucketPred, he, JSNum.gt, JSNum.lt, JSNum.le, Bool.and_eq_true,
          decide_eq_true_eq]
        rcases lt_or_le q 50000 with h1 | h1
        · rw [if_pos ⟨⟨hq0, h⟩, h1⟩,
            if_neg (by rintro ⟨⟨-, hx⟩, -⟩; linarith),
            if_neg (by rintro ⟨⟨-, hx⟩, -⟩; linarith),
            if_neg (by rintro ⟨⟨-, hx⟩, -⟩; linarith),
            if_neg (by rintro ⟨⟨-, hx⟩, -⟩; linarith)]
          norm_num
        · rcases lt_or_le q 100000 with h2 | h2
          · rw [if_neg (by rintro ⟨-, hx⟩; linarith),
              if_pos ⟨⟨hq0, h1⟩, h2⟩,
              if_neg (by rintro ⟨⟨-, hx⟩, -⟩; linarith),
              if_neg (by rintro ⟨⟨-, hx⟩, -⟩; linarith),
              if_neg (by rintro ⟨⟨-, hx⟩, -⟩; linarith)]
            norm_num
          · rcases lt_or_le q 250000 with h3 | h3
            · rw [if_neg (by rintro ⟨-, hx⟩; linarith),
                if_neg (by rintro ⟨⟨-, -⟩, hx⟩; linarith),
                if_pos ⟨⟨hq0, h2⟩, h3⟩,
                if_neg (by rintro ⟨⟨-, hx⟩, -⟩; linarith),
                if_neg (by rintro ⟨⟨-, hx⟩, -⟩; linarith)]
              norm_num
            · rcases lt_or_le q 500000 with h4 | h4
              · rw [if_neg (by rintro ⟨-, hx⟩; linarith),
                  if_neg (by rintro ⟨⟨-, -⟩, hx⟩; linarith),
                  if_neg (by rintro ⟨⟨-, -⟩, hx⟩; linarith),
                  if_pos ⟨⟨hq0, h3⟩, h4⟩,
                  if_neg (by rintro ⟨⟨-, hx⟩, -⟩; linarith)]
                norm_num
              · rw [if_neg (by rintro ⟨-, hx⟩; linarith),
                  if_neg (by rintro ⟨⟨-, -⟩, hx⟩; linarith),
                  if_neg (by rintro ⟨⟨-, -⟩, hx⟩; linarith),
                  if_neg (by rintro ⟨⟨-, -⟩, hx⟩; linarith),
                  if_pos ⟨⟨hq0, h4⟩, trivial⟩]
                norm_num

theorem bucket_conservation : ∀ ls : List Listing, (∀ l ∈ ls, nicePrice l = true) →
    bucketSum ls
      + ls.countP (fun l => hasDefinedPrice l && decide (extractPrice l.price = .fin 0))
      = ls.countP hasDefinedPrice := by
  intro ls
  induction ls with
  | nil => intro _; simp [bucketSum, bucketCounts, priceRanges]
  | cons a t ih =>
    intro h
    have ha := h a (List.mem_cons_self a t)
    have ht := ih (fun l hl => h l (List.mem_cons_of_mem a hl))
    rw [bucketSum_cons, List.countP_cons, List.countP_cons]
    have hel := elem_conservation a ha
    simp only at hel ht ⊢
    omega

/-- Claim C2, counterexample to the claim as stated: a listing with
numeric price −5 has a defined price counted in no bucket and not in the
zero-price count; a listing with an absent price has normalized price 0
(so it enters the zero-price count) but no defined price field; and a
listing whose state is the empty string has a defined state field that
the region counts ignore. -/
theorem aggregation_conservation_counterexample :
    ¬ (bucketSum [listingNeg]
        + [listingNeg].countP (fun l => decide (extractPrice l.price = .fin 0))
        = [listingNeg].countP hasDefinedPrice)
    ∧ ¬ (bucketSum [listingNoPrice]
        + [listingNoPrice].countP (fun l => decide (extractPrice l.price = .fin 0))
        = [listingNoPrice].countP hasDefinedPrice)
    ∧ ¬ (((regionCounts [listingEmptyState]).map Prod.snd).sum
        = [listingEmptyState].countP hasDefinedState) := by
  decide

/-- Claim C2 (amended): for every dataset in which each defined price
normalizes to a nonnegative finite value, the sum of the five
price-bucket counts plus the count of listings with a defined price whose
normalized price is 0 equals the number of listings with a defined price
field; and, for every dataset, the sum of all region counts before top-10
truncation equals the number of listings whose state field is present and
non-empty. -/
theorem aggregation_conservation_amended (ls : List Listing)
    (h : ∀ l ∈ ls, nicePrice l = true) :
    bucketSum ls
      + ls.countP (fun l => hasDefinedPrice l && decide (extractPrice l.price = .fin 0))
      = ls.countP hasDefinedPrice
    ∧ ((regionCounts ls).map Prod.snd).sum
      = ls.countP (fun l => (truthyState l).isSome) :=
  ⟨bucket_conservation ls h, regionCounts_sum ls⟩

/-- Claim C2 witness: both conservation equations at the concrete
three-listing dataset (prices 50000, `"$120,000"`, absent; states
Florida, Idaho, Florida). -/
theorem aggregation_conservation_amended_witness :
    bucketSum [listingFL1, listingID, listingFL2]
      + [listingFL1, listingID, listingFL2].countP
          (fun l => hasDefinedPrice l && decide (extractPrice l.price = .fin 0))
      = [listingFL1, listingID, listingFL2].countP hasDefinedPrice
    ∧ ((regionCounts [listingFL1, listingID, listingFL2]).map Prod.snd).sum
      = [listingFL1, listingID, listingFL2].countP (fun l => (truthyState l).isSome) :=
  aggregation_conservation_amended [listingFL1, listingID, listingFL2]
    (by intro l hl; fin_cases hl <;> decide)
